import Mathlib

/-!
Verification development for the fetch-orchestration engine of the
Volltextextraktion-Selenium-MD repository.  The Python sources under
`src/app/` are shallowly embedded below: pure decision logic becomes Lean
functions, the stateful pool / admission code becomes explicit state
passing, machine time is modelled over `ℚ`, and Python `int` counters are
modelled over `ℤ` (they may in principle go negative, which some claims
are about).
-/

namespace Spec2Proof

/-! ## Preflight classifier (src/app/preflight.py, lines 70-96) -/

/-- Strategy labels returned by `preflight` (src/app/preflight.py docstring). -/
inductive Strategy where
  | HTTP_ONLY
  | JS_LIGHT
  | JS_LIGHT_CONSENT
  | HTTP_THEN_JS
  | PDF
  | RSS
  | YOUTUBE
  | BLOCKED
deriving DecidableEq, Repr

/-- Features computed by `preflight` from the probe's markup
(src/app/preflight.py, lines 72-82). -/
structure Features where
  text_len : Nat
  has_main : Bool
  spa_mark : Bool
  js_required : Bool
  consent : Bool
  bot_wall : Bool
  rss_link : Bool
  youtube : Bool
deriving DecidableEq, Repr

/-- Strategy selection of `preflight` (src/app/preflight.py, lines 85-96):
the `if/elif` chain over the computed features, translated branch for
branch. -/
def strategyOf (f : Features) : Strategy :=
  if f.bot_wall then .BLOCKED
  else if f.youtube then .YOUTUBE
  else if f.rss_link then .RSS
  else if 800 ≤ f.text_len ∧ (f.has_main = true ∨ f.spa_mark = false) ∧
      f.js_required = false ∧ f.consent = false then .HTTP_ONLY
  else if f.spa_mark = true ∨ (f.has_main = true ∧ f.text_len < 500) ∨
      f.js_required = true ∨ f.consent = true then
    (if f.consent then .JS_LIGHT_CONSENT else .JS_LIGHT)
  else .HTTP_THEN_JS

/-! ## Time budget (src/app/js_fetcher.py, lines 686-709)

The Python class stores an absolute monotonic deadline; we model monotonic
time as a rational number passed explicitly (`now`), so `left` and `slice`
become pure functions of the deadline and the current instant. -/

/-- State of `TimeBudget.__init__`: `deadline = now + max(0.0, seconds)`
(src/app/js_fetcher.py, line 693). -/
structure TimeBudget where
  deadline : ℚ
deriving DecidableEq, Repr

/-- Constructor `TimeBudget(seconds)` at instant `now`
(src/app/js_fetcher.py, line 693). -/
def TimeBudget.make (now seconds : ℚ) : TimeBudget :=
  ⟨now + max 0 seconds⟩

/-- Method `TimeBudget.left`: `max(0.0, deadline - monotonic())`
(src/app/js_fetcher.py, lines 695-696). -/
def TimeBudget.left (b : TimeBudget) (now : ℚ) : ℚ :=
  max 0 (b.deadline - now)

/-- Method `TimeBudget.ok`: `left() > 0.0` (src/app/js_fetcher.py, lines 698-699). -/
def TimeBudget.isOk (b : TimeBudget) (now : ℚ) : Bool :=
  decide (0 < b.left now)

/-- Method `TimeBudget.slice` (src/app/js_fetcher.py, lines 701-709):
returns 0 when the budget is exhausted, otherwise
`max(0.0 if desired <= 0 else min(desired, remaining),
     0.0 if floor <= 0 else min(floor, remaining))`. -/
def TimeBudget.slice (b : TimeBudget) (desired floor now : ℚ) : ℚ :=
  let remaining := b.left now
  if remaining ≤ 0 then 0
  else max (if desired ≤ 0 then 0 else min desired remaining)
           (if floor ≤ 0 then 0 else min floor remaining)

/-! ## Renderer worker pool (src/app/js_fetcher.py, lines 24-334)

Per-profile pool state: `_pool_sizes[key]` (targetSize), `_pool_usage[key]`
(inUse, a Python `int`, modelled over `ℤ`), and the idle-driver queue
`_driver_pools[key]`, of which only the length `qsize()` matters here.
Each operation below translates the body of the corresponding function
executed under `_scaling_lock` (scaling decisions) or on the queue; the
sequential model corresponds to a quiescent pool with no interleaving. -/

/-- Pool configuration: `settings.selenium_pool_size` (floor),
`settings.selenium_max_pool_size` (ceiling),
`settings.selenium_scale_threshold` (src/app/config.py, lines 55-57). -/
structure PoolSettings where
  minPool : Nat
  maxPool : Nat
  threshold : ℚ
deriving DecidableEq, Repr

/-- Per-profile pool counters: `_pool_sizes[key]`, `_pool_usage[key]`, and
the idle queue length `_driver_pools[key].qsize()`
(src/app/js_fetcher.py, lines 24-32). -/
structure PoolState where
  size : Nat
  usage : ℤ
  idle : Nat
deriving DecidableEq, Repr

/-- Function `_maybe_scale_pool` (src/app/js_fetcher.py, lines 273-294):
under `_scaling_lock`, if `usage / max(size, 1) >= threshold` and
`qsize() <= 1` and `size < max_pool_size`, one driver is created, put on
the queue, and `_pool_sizes[key] += 1`. -/
def maybeScalePool (s : PoolSettings) (p : PoolState) : PoolState :=
  if s.threshold ≤ (p.usage : ℚ) / (max p.size 1 : ℕ) ∧ p.idle ≤ 1 ∧ p.size < s.maxPool then
    { p with idle := p.idle + 1, size := p.size + 1 }
  else p

/-- Function `_try_emergency_scale` (src/app/js_fetcher.py, lines 297-311):
if `size < max_pool_size`, one driver is created and added and the size
incremented, returning `True`; otherwise returns `False`. -/
def tryEmergencyScale (s : PoolSettings) (p : PoolState) : Bool × PoolState :=
  if p.size < s.maxPool then
    (true, { p with idle := p.idle + 1, size := p.size + 1 })
  else (false, p)

/-- Result of `_get_driver`: either a driver was handed out (with the pool
state left behind), or the `TimeoutException` path was taken. -/
inductive AcquireResult where
  | ok (p : PoolState)
  | timeout (p : PoolState)
deriving DecidableEq, Repr

/-- Pool state carried by an `AcquireResult`. -/
def AcquireResult.state : AcquireResult → PoolState
  | .ok p => p
  | .timeout p => p

/-- Function `_get_driver` (src/app/js_fetcher.py, lines 202-227) on an
initialized pool: first `_maybe_scale_pool`, then `_pool_usage[key] += 1`,
then `queue.get(timeout)` — which in the quiescent model succeeds exactly
when an idle driver is present; on `queue.Empty` the code tries
`_try_emergency_scale` followed by one short retry of `get` (which in the
quiescent model succeeds exactly when the emergency scale added a driver),
and otherwise raises `TimeoutException` WITHOUT undoing the usage
increment. -/
def getDriver (s : PoolSettings) (p : PoolState) : AcquireResult :=
  let p1 := maybeScalePool s p
  let p2 : PoolState := { p1 with usage := p1.usage + 1 }
  if 0 < p2.idle then .ok { p2 with idle := p2.idle - 1 }
  else
    let es := tryEmergencyScale s p2
    if es.1 = true ∧ 0 < es.2.idle then .ok { es.2 with idle := es.2.idle - 1 }
    else .timeout es.2

/-- Function `_maybe_scale_down` (src/app/js_fetcher.py, lines 314-334):
under `_scaling_lock`, if `size > min_size` and `qsize() > size * 0.7` and
`usage < size * 0.3`, one idle driver is removed (`get_nowait`, a no-op
when the queue is empty) and the size decremented. -/
def maybeScaleDown (s : PoolSettings) (p : PoolState) : PoolState :=
  if s.minPool < p.size ∧ (p.size : ℚ) * (7/10) < (p.idle : ℚ) ∧
      (p.usage : ℚ) < (p.size : ℚ) * (3/10) then
    if 0 < p.idle then { p with idle := p.idle - 1, size := p.size - 1 }
    else p
  else p

/-- Function `_return_driver` (src/app/js_fetcher.py, lines 230-258):
`_pool_usage[key] = max(0, _pool_usage[key] - 1)`; then a liveness probe —
a broken driver is quit and replaced by a fresh one put on the queue
(returning early, size preserved); a healthy driver is put back on the
queue and `_maybe_scale_down` runs. -/
def returnDriver (s : PoolSettings) (healthy : Bool) (p : PoolState) : PoolState :=
  let p1 : PoolState := { p with usage := max 0 (p.usage - 1) }
  if healthy then
    maybeScaleDown s { p1 with idle := p1.idle + 1 }
  else
    { p1 with idle := p1.idle + 1 }

/-- Pool-counter invariant claimed by the spec for quiescent states:
`idle + inUse == targetSize` (spec section 3, Pool State). -/
def poolCountersBalanced (p : PoolState) : Prop :=
  (p.idle : ℤ) + p.usage = (p.size : ℤ)

/-- Lazily initialized pool (`_initialize_pool`, src/app/js_fetcher.py,
lines 187-195): `minPool` drivers on the queue, size preset to `minPool`
(lines 28-31), usage 0. -/
def initialPool (s : PoolSettings) : PoolState :=
  { size := s.minPool, usage := 0, idle := s.minPool }

/-! ## Admission controller (src/app/main.py, lines 32-91)

`SmartCapacityMiddleware.dispatch` manipulates the module counters
`_concurrent_requests` and `_waiting_count` (Python ints, modelled over
`ℤ`).  The sequential model below runs one request to completion through
the middleware; `acquireSucceeds` is the oracle for whether
`asyncio.wait_for(_request_semaphore.acquire(), queue_timeout)` returned
within the timeout, and `handlerOk` for whether `call_next` succeeded. -/

/-- Module counters `_concurrent_requests` and `_waiting_count`
(src/app/main.py, lines 25-26). -/
structure AdmissionState where
  concurrent : ℤ
  waiting : ℤ
deriving DecidableEq, Repr

/-- Outcome of one pass through `SmartCapacityMiddleware.dispatch` for a
`/crawl` request. -/
inductive DispatchOutcome where
  | rejectedOverload
  | queueTimeout
  | processed
  | errored
deriving DecidableEq, Repr

/-- The arrival-time critical section of `SmartCapacityMiddleware.dispatch`
(src/app/main.py, lines 47-58), executed under `_request_lock`:
`can_enter_now = _concurrent_requests < _max_concurrent`; when false and
`_waiting_count >= max_queue_size` the 503 rejection is returned from
inside the lock, before any blocking wait; otherwise the waiting counter
is incremented. -/
inductive ArrivalDecision where
  | enterNoWait
  | enterQueue
  | rejectOverload
deriving DecidableEq, Repr

/-- Arrival check of `dispatch` (src/app/main.py, lines 47-58). -/
def arrivalCheck (maxConc maxQueue : ℤ) (st : AdmissionState) :
    ArrivalDecision × AdmissionState :=
  if st.concurrent < maxConc then (.enterNoWait, st)
  else if maxQueue ≤ st.waiting then (.rejectOverload, st)
  else (.enterQueue, { st with waiting := st.waiting + 1 })

/-- Full pass of `SmartCapacityMiddleware.dispatch` for a `/crawl` request
(src/app/main.py, lines 38-91): arrival check; then
`wait_for(semaphore.acquire, timeout)` — on `TimeoutError` the 504 response
is returned with no counter update; on success the waiting counter is
decremented when positive and `_concurrent_requests` incremented; the
handler runs; `_concurrent_requests` is decremented in the inner `finally`
and the semaphore released in the outer one. -/
def dispatch (maxConc maxQueue : ℤ) (acquireSucceeds handlerOk : Bool)
    (st : AdmissionState) : DispatchOutcome × AdmissionState :=
  match arrivalCheck maxConc maxQueue st with
  | (.rejectOverload, st1) => (.rejectedOverload, st1)
  | (_, st1) =>
      if acquireSucceeds then
        let st2 : AdmissionState :=
          { st1 with
            waiting := if 0 < st1.waiting then st1.waiting - 1 else st1.waiting,
            concurrent := st1.concurrent + 1 }
        let st3 : AdmissionState := { st2 with concurrent := st2.concurrent - 1 }
        (if handlerOk then (.processed, st3) else (.errored, st3))
      else
        (.queueTimeout, st1)

/-! ## Direct transfer fetcher byte cap (src/app/http_fetcher.py, lines 62-78)

`fetch_with_httpx` streams the body: `buf = bytearray()`, then for each
chunk `if chunk: buf.extend(chunk); if len(buf) > max_bytes: break`, and
finally returns `bytes(buf[:max_bytes])`.  Bytes are modelled as `Nat`. -/

/-- The streaming accumulation loop of `fetch_with_httpx`
(src/app/http_fetcher.py, lines 71-77). -/
def accumChunks (maxBytes : Nat) : List (List Nat) → List Nat → List Nat
  | [], buf => buf
  | c :: rest, buf =>
      if c.isEmpty then accumChunks maxBytes rest buf
      else
        let buf1 := buf ++ c
        if maxBytes < buf1.length then buf1
        else accumChunks maxBytes rest buf1

/-- Body returned by `fetch_with_httpx`: the accumulated buffer sliced to
`max_bytes` (src/app/http_fetcher.py, line 78). -/
def httpxBody (chunks : List (List Nat)) (maxBytes : Nat) : List Nat :=
  (accumChunks maxBytes chunks []).take maxBytes

/-- Truncation applied by the rendered path:
`content.encode("utf-8")[:max_bytes]` (src/app/js_fetcher.py, lines 631,
813, 825, 869, 887). -/
def seleniumTruncate (content : List Nat) (maxBytes : Nat) : List Nat :=
  content.take maxBytes

/-! ## Automatic-mode routing in `crawl` (src/app/main.py, lines 324-367)

In `auto` mode `crawl` first calls
`preflight_analyze(str(req.url), timeout_seconds=..., user_agent=...,
allow_insecure_ssl=req.allow_insecure_ssl)`.  Python binds that call
against the definition
`async def preflight(url, timeout_seconds, user_agent)` in
src/app/preflight.py (lines 13-17); an unexpected keyword raises
`TypeError` at the call site, which the `except` block at line 388 maps to
an HTTP 502.  The keyword binding and the (subsequent) strategy dispatch
are both modelled. -/

/-- Parameter names of `preflight` (src/app/preflight.py, lines 13-17). -/
def preflightParams : List String :=
  ["url", "timeout_seconds", "user_agent"]

/-- Keyword arguments that `crawl` passes to `preflight_analyze` in the
`auto` branch, after the single positional `str(req.url)`
(src/app/main.py, lines 326-331). -/
def crawlAutoKwargs : List String :=
  ["timeout_seconds", "user_agent", "allow_insecure_ssl"]

/-- Python call binding for a function with no `*args`/`**kwargs`: the
first `numPositional` parameters are bound positionally, and every keyword
argument must name one of the remaining parameters, else the call raises
`TypeError`. -/
def pythonCallBinds (params : List String) (numPositional : Nat)
    (kwargs : List String) : Bool :=
  numPositional ≤ params.length &&
    kwargs.all (fun k => (params.drop numPositional).contains k)

/-- Probe result consumed by the `auto` branch of `crawl`: status, final
URL, probe bytes and the extracted-text length feature
(src/app/preflight.py, lines 98-115). -/
structure ProbeResult where
  status : Nat
  text_len : Nat
  strategy : Strategy
deriving DecidableEq, Repr

/-- Path chosen by the `auto` branch of `crawl`. -/
inductive AutoOutcome where
  | typeError
  | direct (pr : ProbeResult)
  | rendered (pr : ProbeResult)
deriving DecidableEq, Repr

/-- Strategy dispatch of the `auto` branch (src/app/main.py, lines
332-367): terminal labels `PDF`/`RSS`/`HTTP_ONLY`/`YOUTUBE` return the
probe's own data; `HTTP_THEN_JS` with `text_len >= 700` short-circuits to
the probe result; everything else calls the render executor. -/
def crawlAutoRoute (pr : ProbeResult) : AutoOutcome :=
  if pr.strategy = .PDF ∨ pr.strategy = .RSS ∨ pr.strategy = .HTTP_ONLY ∨
      pr.strategy = .YOUTUBE then .direct pr
  else if pr.strategy = .HTTP_THEN_JS ∧ 700 ≤ pr.text_len then .direct pr
  else .rendered pr

/-- The `auto` branch of `crawl` as executed (src/app/main.py, lines
324-367): the call into `preflight` must bind first; when the binding
fails, `TypeError` propagates to the handler at line 388 and no routing
happens. -/
def crawlAuto (pr : ProbeResult) : AutoOutcome :=
  if pythonCallBinds preflightParams 1 crawlAutoKwargs then crawlAutoRoute pr
  else .typeError

/-! ## Budgeted render executor (src/app/js_fetcher.py, lines 712-953)

`_selenium_fetch._sync_fetch` runs a retry loop with
`max_attempts = (min(retries, 1) + 1) if js_strategy == "speed" else
(retries + 1)` (line 745).  The environment below supplies what is outside
the program's control: the outcome and duration of each navigation attempt
(success, or an exception whose message may contain
"timed out receiving message from renderer"), and the outcome and duration
of each `_attempt_with_temp_driver` call.  All temp-driver calls on the
failure paths modelled here run in `accuracy` profile (lines 902-908 and
931-939); the error-page temp-driver retries inside a successful attempt
(lines 873-884) are guarded by `js_strategy != "speed"` and are folded
into the attempt itself. -/

/-- Outcome of one navigation attempt (the `try` body, lines 749-889):
either a return, or an exception; `rendererTimeout` says whether its
message contains "timed out receiving message from renderer" (line 901);
`dur` is the monotonic time the attempt consumed. -/
inductive AttemptOutcome where
  | success (dur : ℚ)
  | failure (rendererTimeout : Bool) (dur : ℚ)
deriving DecidableEq, Repr

/-- Environment of one `_sync_fetch` run: `attempt i` is the outcome of
loop iteration `i`; `temp n` is the result (`True` = content obtained)
and duration of the `n`-th `_attempt_with_temp_driver` call. -/
structure FetchEnv where
  attempt : Nat → AttemptOutcome
  temp : Nat → Bool × ℚ

/-- How `_sync_fetch` terminates. -/
inductive FetchResult where
  | content
  | tempContent
  | raisedLast
  | unknownError
deriving DecidableEq, Repr

/-- Mutable locals of the retry loop (lines 743-746) plus the observables
tracked for the claims: how many early-escalation and final-fallback
temp-driver attempts ran, how many navigation attempts were made, and each
backoff sleep as (slept duration, budget remaining before the sleep). -/
structure LoopState where
  now : ℚ
  didEarly : Bool
  lastExc : Bool
  earlyCount : Nat
  finalCount : Nat
  attemptsMade : Nat
  sleeps : List (ℚ × ℚ)
deriving DecidableEq, Repr

/-- A finished `_sync_fetch` run. -/
structure FetchTrace where
  result : FetchResult
  final : LoopState
deriving DecidableEq, Repr

/-- Code after the loop (lines 927-945): if an exception was recorded, the
speed-mode final fallback (one `_attempt_with_temp_driver` in accuracy,
guarded by `budget.left() > 2.0`) runs before `raise last_exc`; with no
recorded exception the `RuntimeError` path is taken. -/
def finishLoop (speed : Bool) (env : FetchEnv) (b : TimeBudget)
    (st : LoopState) : FetchTrace :=
  if st.lastExc then
    if speed = true ∧ 2 < b.left st.now then
      let t := env.temp (st.earlyCount + st.finalCount)
      let st1 : LoopState :=
        { st with now := st.now + t.2, finalCount := st.finalCount + 1 }
      if t.1 then ⟨.tempContent, st1⟩ else ⟨.raisedLast, st1⟩
    else ⟨.raisedLast, st⟩
  else ⟨.unknownError, st⟩

/-- Early-fallback block of the exception handler (lines 893-914): on the
first renderer-level timeout in speed mode with `budget.left() > 2.0`, one
temp-driver attempt in accuracy runs and `did_early_accuracy` is set; the
returned flag says whether the temp attempt produced content (and
`_sync_fetch` returns it). -/
def earlyFallbackStep (speed : Bool) (env : FetchEnv) (b : TimeBudget)
    (isRT : Bool) (st : LoopState) : Bool × LoopState :=
  if st.didEarly = false ∧ speed = true ∧ 2 < b.left st.now ∧ isRT = true then
    let t := env.temp (st.earlyCount + st.finalCount)
    (t.1, { st with now := st.now + t.2, didEarly := true,
                    earlyCount := st.earlyCount + 1 })
  else (false, st)

/-- The retry loop of `_sync_fetch` (lines 746-926), by remaining
iterations `fuel` with `i` the current value of `attempt`: the loop head
checks `budget.ok()`; a successful attempt returns; an exception records
`last_exc`, runs the early-fallback block, re-checks `budget.ok()`, then
sleeps `min(min(2 ** attempt, 5), budget.left())` and continues. -/
def loopGo (speed : Bool) (env : FetchEnv) (b : TimeBudget) :
    Nat → Nat → LoopState → FetchTrace
  | 0, _, st => finishLoop speed env b st
  | fuel + 1, i, st =>
      if b.left st.now ≤ 0 then finishLoop speed env b st
      else
        match env.attempt i with
        | .success dur =>
            ⟨.content, { st with now := st.now + dur,
                                 attemptsMade := st.attemptsMade + 1 }⟩
        | .failure isRT dur =>
            let st1 : LoopState :=
              { st with now := st.now + dur, lastExc := true,
                        attemptsMade := st.attemptsMade + 1 }
            let step := earlyFallbackStep speed env b isRT st1
            if step.1 then ⟨.tempContent, step.2⟩
            else
              if b.left step.2.now ≤ 0 then finishLoop speed env b step.2
              else
                let l := b.left step.2.now
                let slept := min (min ((2 : ℚ) ^ i) 5) l
                loopGo speed env b fuel (i + 1)
                  { step.2 with now := step.2.now + slept,
                                sleeps := (slept, l) :: step.2.sleeps }

/-- Attempt bound of the retry loop (line 745). -/
def maxAttempts (speed : Bool) (retries : Nat) : Nat :=
  if speed then min retries 1 + 1 else retries + 1

/-- Loop locals on entry (lines 733-746), with the clock starting at 0. -/
def initialLoopState : LoopState :=
  { now := 0, didEarly := false, lastExc := false, earlyCount := 0,
    finalCount := 0, attemptsMade := 0, sleeps := [] }

/-- One full `_sync_fetch` run (lines 724-945): the budget is created from
`timeout_seconds` at instant 0 and the loop runs with `max_attempts`
iterations of fuel. -/
def seleniumFetchRun (speed : Bool) (retries : Nat) (timeoutSeconds : ℚ)
    (env : FetchEnv) : FetchTrace :=
  loopGo speed env (TimeBudget.make 0 timeoutSeconds)
    (maxAttempts speed retries) 0 initialLoopState

/-- Total `_attempt_with_temp_driver` calls in accuracy profile made on
the failure paths of a run. -/
def FetchTrace.tempAccuracyCount (t : FetchTrace) : Nat :=
  t.final.earlyCount + t.final.finalCount

/-- Concrete executor environment: every navigation attempt raises a
renderer-level timeout after 1 s, and every disposable-worker attempt
fails after 1 s. -/
def envC7 : FetchEnv :=
  { attempt := fun _ => .failure true 1,
    temp := fun _ => (false, 1) }

/-! ## Theorems -/

/-- Helper: `maybeScaleDown` never touches the usage counter. -/
theorem maybeScaleDown_usage (s : PoolSettings) (p : PoolState) :
    (maybeScaleDown s p).usage = p.usage := by
  unfold maybeScaleDown
  split <;> [skip; rfl]
  split <;> rfl

/-- Helper: `returnDriver` sets the usage counter to `max 0 (usage - 1)`. -/
theorem returnDriver_usage (s : PoolSettings) (healthy : Bool) (p : PoolState) :
    (returnDriver s healthy p).usage = max 0 (p.usage - 1) := by
  unfold returnDriver
  cases healthy <;> simp [maybeScaleDown_usage]

/-- Helper: any sequence of releases keeps a nonnegative usage counter
nonnegative. -/
theorem foldl_release_nonneg (s : PoolSettings) (rels : List Bool) :
    ∀ p : PoolState, 0 ≤ p.usage →
      0 ≤ (rels.foldl (fun q hl => returnDriver s hl q) p).usage := by
  induction rels with
  | nil => intro p hp; simpa using hp
  | cons hd tl ih =>
      intro p hp
      simp only [List.foldl_cons]
      exact ih (returnDriver s hd p) (by rw [returnDriver_usage]; exact le_max_left 0 _)

/-- C10: for every pool profile and every sequence of release operations
the in-use counter never becomes negative: each `_return_driver` clamps
the decrement at `max(0, inUse - 1)`, so even a release not matched by a
successful acquire leaves `inUse ≥ 0`. -/
theorem release_never_negative (s : PoolSettings) (p : PoolState)
    (healthy : Bool) (rels : List Bool) (h : 0 ≤ p.usage) :
    (returnDriver s healthy p).usage = max 0 (p.usage - 1) ∧
    0 ≤ (returnDriver s healthy p).usage ∧
    0 ≤ (rels.foldl (fun q hl => returnDriver s hl q) p).usage := by
  refine ⟨returnDriver_usage s healthy p, ?_, foldl_release_nonneg s rels p h⟩
  rw [returnDriver_usage]; exact le_max_left 0 _

/-- Witness for `release_never_negative` at a concrete pool state and a
triple of releases. -/
theorem release_never_negative_witness :
    (returnDriver ⟨2, 8, 4/5⟩ true ⟨2, 0, 2⟩).usage = max 0 (0 - 1) ∧
    0 ≤ (returnDriver ⟨2, 8, 4/5⟩ true ⟨2, 0, 2⟩).usage ∧
    0 ≤ (([true, false, true] : List Bool).foldl
          (fun q hl => returnDriver ⟨2, 8, 4/5⟩ hl q) ⟨2, 0, 2⟩).usage :=
  release_never_negative ⟨2, 8, 4/5⟩ ⟨2, 0, 2⟩ true [true, false, true] (by decide)

/-- C2: the pool-counter balance `idle + inUse == targetSize` holds after
lazy initialization and after each completed acquire, but the timed-out
third acquire on a saturated pool at its ceiling (floor = ceiling = 2,
threshold 0.8) leaves `_pool_usage` incremented with no driver lent:
`idle + inUse = 3 ≠ 2 = targetSize`. -/
theorem pool_timeout_leaks_usage :
    initialPool ⟨2, 2, 4/5⟩ = ⟨2, 0, 2⟩ ∧
    poolCountersBalanced ⟨2, 0, 2⟩ ∧
    getDriver ⟨2, 2, 4/5⟩ ⟨2, 0, 2⟩ = .ok ⟨2, 1, 1⟩ ∧
    poolCountersBalanced ⟨2, 1, 1⟩ ∧
    getDriver ⟨2, 2, 4/5⟩ ⟨2, 1, 1⟩ = .ok ⟨2, 2, 0⟩ ∧
    poolCountersBalanced ⟨2, 2, 0⟩ ∧
    getDriver ⟨2, 2, 4/5⟩ ⟨2, 2, 0⟩ = .timeout ⟨2, 3, 0⟩ ∧
    ¬ poolCountersBalanced ⟨2, 3, 0⟩ := by
  refine ⟨rfl, by norm_num [poolCountersBalanced], ?_,
    by norm_num [poolCountersBalanced], ?_, by norm_num [poolCountersBalanced], ?_,
    by norm_num [poolCountersBalanced]⟩
  · unfold getDriver maybeScalePool tryEmergencyScale
    norm_num
  · unfold getDriver maybeScalePool tryEmergencyScale
    norm_num
  · unfold getDriver maybeScalePool tryEmergencyScale
    norm_num

/-- C3: a request that entered the waiting room (capacity 1 saturated,
queue empty) and then timed out waiting for the semaphore is answered with
the 504 queue-timeout response, but `_waiting_count` is left at 1: the
decrement the claim requires never happens. -/
theorem queue_timeout_leaks_waiting :
    dispatch 1 50 false true ⟨1, 0⟩ = (.queueTimeout, ⟨1, 1⟩) ∧
    (dispatch 1 50 false true ⟨1, 0⟩).2.waiting ≠ 0 := by
  refine ⟨by decide, by decide⟩

/-- C4: an arriving request that finds `_concurrent_requests` at capacity
while `_waiting_count` is already at `max_queue_size` is rejected inside
the arrival critical section (under `_request_lock`), with no counter
change and independently of the semaphore oracle — no blocking wait is
performed. -/
theorem admission_full_queue_rejects_immediately
    (maxConc maxQueue : ℤ) (acq handlerOk : Bool) (st : AdmissionState)
    (hslot : maxConc ≤ st.concurrent) (hfull : maxQueue ≤ st.waiting) :
    arrivalCheck maxConc maxQueue st = (.rejectOverload, st) ∧
    dispatch maxConc maxQueue acq handlerOk st = (.rejectedOverload, st) := by
  have harr : arrivalCheck maxConc maxQueue st = (.rejectOverload, st) := by
    unfold arrivalCheck
    rw [if_neg (not_lt.mpr hslot), if_pos hfull]
  exact ⟨harr, by unfold dispatch; rw [harr]⟩

/-- Witness for `admission_full_queue_rejects_immediately`: capacity 1,
queue bound 50, one request in flight and fifty parked. -/
theorem admission_full_queue_rejects_immediately_witness :
    arrivalCheck 1 50 ⟨1, 50⟩ = (.rejectOverload, ⟨1, 50⟩) ∧
    dispatch 1 50 true true ⟨1, 50⟩ = (.rejectedOverload, ⟨1, 50⟩) :=
  admission_full_queue_rejects_immediately 1 50 true true ⟨1, 50⟩
    (by decide) (by decide)

/-- C1: in automatic mode the call `preflight_analyze(str(req.url),
timeout_seconds=..., user_agent=..., allow_insecure_ssl=...)` does not
bind against `preflight(url, timeout_seconds, user_agent)`; Python raises
`TypeError` before any probe is issued, so for every probe result the
strategy dispatch is never reached and no label ever selects a path. -/
theorem crawl_auto_mode_raises_typeerror :
    pythonCallBinds preflightParams 1 crawlAutoKwargs = false ∧
    ∀ pr : ProbeResult, crawlAuto pr = .typeError := by
  have hb : pythonCallBinds preflightParams 1 crawlAutoKwargs = false := by rfl
  refine ⟨hb, fun pr => ?_⟩
  unfold crawlAuto
  rw [hb]
  simp

/-- Counterexample to C5 as stated: with 10 s remaining, `slice(0, 0)`
returns 0 although the budget is not exhausted (refuting "returns 0 only
when the budget is exhausted" for arbitrary arguments), and
`slice(1, 5)` returns 5, above the claimed upper bound
`min(desired, remaining) = 1` (the floor overrides the desired value). -/
theorem timebudget_slice_claim_counterexample :
    (TimeBudget.make 0 10).slice 0 0 0 = 0 ∧
    0 < (TimeBudget.make 0 10).left 0 ∧
    (TimeBudget.make 0 10).slice 1 5 0 = 5 ∧
    min (1 : ℚ) ((TimeBudget.make 0 10).left 0) = 1 := by
  refine ⟨?_, ?_, ?_, ?_⟩ <;>
    norm_num [TimeBudget.make, TimeBudget.slice, TimeBudget.left]

/-- C5 amended: `remaining()` is never negative; `slice` returns 0
whenever the budget is exhausted, regardless of the arguments; and for
`0 < desired` with `floor ≤ desired`, `slice` is nonzero whenever budget
remains and lies in `[min(floor, remaining), min(desired, remaining)]`. -/
theorem timebudget_slice_contract (b : TimeBudget) (now desired floor : ℚ) :
    0 ≤ b.left now ∧
    (b.left now = 0 → b.slice desired floor now = 0) ∧
    (0 < desired → floor ≤ desired → 0 < b.left now →
      0 < b.slice desired floor now ∧
      min floor (b.left now) ≤ b.slice desired floor now ∧
      b.slice desired floor now ≤ min desired (b.left now)) := by
  refine ⟨le_max_left 0 _, ?_, ?_⟩
  · intro h0
    simp only [TimeBudget.slice, h0]
    norm_num
  · intro hd hfd hrem
    simp only [TimeBudget.slice]
    rw [if_neg (not_le.mpr hrem), if_neg (not_le.mpr hd)]
    rcases le_or_lt floor 0 with hf | hf
    · rw [if_pos hf]
      refine ⟨lt_max_of_lt_left (lt_min hd hrem), ?_, ?_⟩
      · exact le_trans (le_trans (min_le_left _ _) hf) (le_max_right _ _)
      · exact max_le (le_refl _) (le_min (le_of_lt hd) (le_of_lt hrem))
    · rw [if_neg (not_le.mpr hf)]
      refine ⟨lt_max_of_lt_left (lt_min hd hrem), le_max_right _ _, ?_⟩
      exact max_le (le_refl _) (min_le_min hfd (le_refl _))

/-- Witness for `timebudget_slice_contract`: a 10 s budget at instant 0
with `desired = 3`, `floor = 1`. -/
theorem timebudget_slice_contract_witness :
    0 < (TimeBudget.make 0 10).slice 3 1 0 ∧
    min (1 : ℚ) ((TimeBudget.make 0 10).left 0) ≤ (TimeBudget.make 0 10).slice 3 1 0 ∧
    (TimeBudget.make 0 10).slice 3 1 0 ≤ min (3 : ℚ) ((TimeBudget.make 0 10).left 0) :=
  (timebudget_slice_contract (TimeBudget.make 0 10) 0 3 1).2.2
    (by norm_num) (by norm_num)
    (by norm_num [TimeBudget.make, TimeBudget.left])

/-- C6: the classifier's label is first-match-wins in the order
bot-challenge, video domain, feed link, content-complete direct path,
JS-needed path (with the consent variant), default; and consent phrasing
with only 300 characters of text yields `JS_LIGHT_CONSENT`. -/
theorem preflight_decision_order (f : Features) :
    (f.bot_wall = true → strategyOf f = .BLOCKED) ∧
    (f.bot_wall = false → f.youtube = true → strategyOf f = .YOUTUBE) ∧
    (f.bot_wall = false → f.youtube = false → f.rss_link = true →
      strategyOf f = .RSS) ∧
    (f.bot_wall = false → f.youtube = false → f.rss_link = false →
      800 ≤ f.text_len → (f.has_main = true ∨ f.spa_mark = false) →
      f.js_required = false → f.consent = false →
      strategyOf f = .HTTP_ONLY) ∧
    (f.bot_wall = false → f.youtube = false → f.rss_link = false →
      ¬(800 ≤ f.text_len ∧ (f.has_main = true ∨ f.spa_mark = false) ∧
          f.js_required = false ∧ f.consent = false) →
      (f.spa_mark = true ∨ (f.has_main = true ∧ f.text_len < 500) ∨
          f.js_required = true ∨ f.consent = true) →
      strategyOf f = (if f.consent then .JS_LIGHT_CONSENT else .JS_LIGHT)) ∧
    (f.bot_wall = false → f.youtube = false → f.rss_link = false →
      ¬(800 ≤ f.text_len ∧ (f.has_main = true ∨ f.spa_mark = false) ∧
          f.js_required = false ∧ f.consent = false) →
      ¬(f.spa_mark = true ∨ (f.has_main = true ∧ f.text_len < 500) ∨
          f.js_required = true ∨ f.consent = true) →
      strategyOf f = .HTTP_THEN_JS) ∧
    (f.bot_wall = false → f.youtube = false → f.rss_link = false →
      f.consent = true → f.text_len = 300 → strategyOf f = .JS_LIGHT_CONSENT) := by
  refine ⟨?_, ?_, ?_, ?_, ?_, ?_, ?_⟩
  · intro h1; simp [strategyOf, h1]
  · intro h1 h2; simp [strategyOf, h1, h2]
  · intro h1 h2 h3; simp [strategyOf, h1, h2, h3]
  · intro h1 h2 h3 h4 h5 h6 h7
    simp [strategyOf, h1, h2, h3, h4, h5, h6, h7]
  · intro h1 h2 h3 h4 h5
    simp only [strategyOf, h1, h2, h3]
    rw [if_neg h4, if_pos h5]
    simp
  · intro h1 h2 h3 h4 h5
    simp only [strategyOf, h1, h2, h3]
    rw [if_neg h4, if_neg h5]
    simp
  · intro h1 h2 h3 h4 h5
    simp [strategyOf, h1, h2, h3, h4, h5]

/-- Witness for `preflight_decision_order`: a probe with consent phrasing,
300 characters of text and no other signal is labelled
`JS_LIGHT_CONSENT`. -/
theorem preflight_decision_order_witness :
    strategyOf ⟨300, false, false, false, true, false, false, false⟩ =
      .JS_LIGHT_CONSENT :=
  (preflight_decision_order ⟨300, false, false, false, true, false, false, false⟩).2.2.2.2.2.2
    rfl rfl rfl rfl rfl

/-- Helper: the accumulated streaming buffer reaches `maxBytes + 1` bytes
unless the chunks run out first. -/
theorem accumChunks_length_lower (maxBytes : Nat) :
    ∀ (chunks : List (List Nat)) (buf : List Nat),
      min (buf.length + (chunks.map List.length).sum) (maxBytes + 1) ≤
        (accumChunks maxBytes chunks buf).length := by
  intro chunks
  induction chunks with
  | nil =>
      intro buf
      simp [accumChunks]
  | cons c rest ih =>
      intro buf
      simp only [accumChunks, List.map_cons, List.sum_cons]
      split
      · next hce =>
          have hc0 : c.length = 0 := by
            simp [List.isEmpty_iff] at hce
            simp [hce]
          have := ih buf
          omega
      · split
        · next hbig =>
            have : maxBytes + 1 ≤ (buf ++ c).length := hbig
            exact le_trans (min_le_right _ _) this
        · next hsmall =>
            have h2 := ih (buf ++ c)
            simp only [List.length_append] at h2
            omega

/-- C9: the returned bytes buffer of the direct fetcher is at most
`max_bytes` long and is exactly `max_bytes` long whenever the streamed
body is strictly larger; the rendered path's buffer is likewise capped. -/
theorem fetch_byte_cap (chunks : List (List Nat)) (content : List Nat)
    (maxBytes : Nat) :
    (httpxBody chunks maxBytes).length ≤ maxBytes ∧
    (maxBytes < (chunks.map List.length).sum →
      (httpxBody chunks maxBytes).length = maxBytes) ∧
    (seleniumTruncate content maxBytes).length ≤ maxBytes := by
  refine ⟨?_, ?_, ?_⟩
  · simp [httpxBody]
  · intro hbig
    have hlow := accumChunks_length_lower maxBytes chunks []
    simp only [List.length_nil, Nat.zero_add] at hlow
    simp only [httpxBody, List.length_take]
    omega
  · simp [seleniumTruncate]

/-- Witness for `fetch_byte_cap`: a single 3-byte chunk against a 2-byte
cap comes back as exactly 2 bytes. -/
theorem fetch_byte_cap_witness :
    (httpxBody [[1, 2, 3]] 2).length ≤ 2 ∧
    (httpxBody [[1, 2, 3]] 2).length = 2 ∧
    (seleniumTruncate [7, 7, 7] 2).length ≤ 2 :=
  ⟨(fetch_byte_cap [[1, 2, 3]] [7, 7, 7] 2).1,
   (fetch_byte_cap [[1, 2, 3]] [7, 7, 7] 2).2.1 (by decide),
   (fetch_byte_cap [[1, 2, 3]] [7, 7, 7] 2).2.2⟩

/-- Helper: `_maybe_scale_pool` never pushes the size past the ceiling. -/
theorem maybeScalePool_size_le (s : PoolSettings) (q : PoolState)
    (hq : q.size ≤ s.maxPool) : (maybeScalePool s q).size ≤ s.maxPool := by
  unfold maybeScalePool
  split
  · next hcond => exact hcond.2.2
  · exact hq

/-- Helper: `_try_emergency_scale` never pushes the size past the
ceiling. -/
theorem tryEmergencyScale_size_le (s : PoolSettings) (r : PoolState)
    (hr : r.size ≤ s.maxPool) : (tryEmergencyScale s r).2.size ≤ s.maxPool := by
  unfold tryEmergencyScale
  split
  · next hlt => dsimp only; omega
  · exact hr

/-- Helper: `_get_driver` never pushes the size past the ceiling. -/
theorem getDriver_size_le (s : PoolSettings) (q : PoolState)
    (hq : q.size ≤ s.maxPool) : (getDriver s q).state.size ≤ s.maxPool := by
  have h1 := maybeScalePool_size_le s q hq
  unfold getDriver
  generalize maybeScalePool s q = p1 at h1 ⊢
  dsimp only
  split
  · simpa [AcquireResult.state] using h1
  · have h2 : (tryEmergencyScale s
        { size := p1.size, usage := p1.usage + 1, idle := p1.idle }).2.size ≤
        s.maxPool :=
      tryEmergencyScale_size_le s _ (by simpa using h1)
    split
    · simpa [AcquireResult.state] using h2
    · simpa [AcquireResult.state] using h2

/-- Helper: `_maybe_scale_down` never pushes the size past the ceiling. -/
theorem maybeScaleDown_size_le (s : PoolSettings) (r : PoolState)
    (hr : r.size ≤ s.maxPool) : (maybeScaleDown s r).size ≤ s.maxPool := by
  unfold maybeScaleDown
  split
  · split
    · show r.size - 1 ≤ s.maxPool
      omega
    · exact hr
  · exact hr

/-- Helper: `_return_driver` never pushes the size past the ceiling. -/
theorem returnDriver_size_le (s : PoolSettings) (q : PoolState)
    (hq : q.size ≤ s.maxPool) (healthy : Bool) :
    (returnDriver s healthy q).size ≤ s.maxPool := by
  unfold returnDriver
  cases healthy
  · simpa using hq
  · simp only [if_pos rfl]
    exact maybeScaleDown_size_le s _ (by simpa using hq)

/-- C8: when `inUse / max(targetSize, 1) ≥ scaleThreshold`, `idle ≤ 1` and
`targetSize < ceilingSize`, the scaling critical section adds exactly one
worker and increments `targetSize` by one (leaving the usage counter
alone), and it runs inside `_get_driver` before the queue wait; in the
concrete scenario floor 2, both workers lent, threshold 0.8 and ceiling 8,
a third acquire grows the pool to 3 and is served without waiting; and no
pool operation ever pushes `targetSize` past the ceiling. -/
theorem pool_scale_up_spec (s : PoolSettings) (p : PoolState)
    (h1 : s.threshold ≤ (p.usage : ℚ) / (max p.size 1 : ℕ))
    (h2 : p.idle ≤ 1) (h3 : p.size < s.maxPool) :
    maybeScalePool s p = { p with idle := p.idle + 1, size := p.size + 1 } ∧
    getDriver ⟨2, 8, 4/5⟩ ⟨2, 2, 0⟩ = .ok ⟨3, 3, 0⟩ ∧
    ∀ q : PoolState, q.size ≤ s.maxPool →
      (getDriver s q).state.size ≤ s.maxPool ∧
      ∀ healthy, (returnDriver s healthy q).size ≤ s.maxPool := by
  refine ⟨?_, ?_, fun q hq =>
    ⟨getDriver_size_le s q hq, fun healthy => returnDriver_size_le s q hq healthy⟩⟩
  · unfold maybeScalePool
    rw [if_pos ⟨h1, h2, h3⟩]
  · unfold getDriver maybeScalePool tryEmergencyScale
    norm_num

/-- Witness for `pool_scale_up_spec`: the scenario pool with both workers
lent under threshold 0.8. -/
theorem pool_scale_up_spec_witness :
    maybeScalePool ⟨2, 8, 4/5⟩ ⟨2, 2, 0⟩ =
      { (⟨2, 2, 0⟩ : PoolState) with idle := 0 + 1, size := 2 + 1 } ∧
    getDriver ⟨2, 8, 4/5⟩ ⟨2, 2, 0⟩ = .ok ⟨3, 3, 0⟩ ∧
    (getDriver ⟨2, 8, 4/5⟩ ⟨3, 3, 0⟩).state.size ≤ 8 := by
  have h := pool_scale_up_spec ⟨2, 8, 4/5⟩ ⟨2, 2, 0⟩ (by norm_num) (by norm_num)
    (by norm_num)
  exact ⟨h.1, h.2.1, (h.2.2 ⟨3, 3, 0⟩ (by norm_num)).1⟩

/-- Helper: the post-loop code never touches the early-escalation
counter. -/
theorem finishLoop_earlyCount (speed : Bool) (env : FetchEnv) (b : TimeBudget)
    (st : LoopState) :
    (finishLoop speed env b st).final.earlyCount = st.earlyCount := by
  simp only [finishLoop]
  split_ifs <;> simp

/-- Helper: the post-loop code never touches the attempt counter. -/
theorem finishLoop_attempts (speed : Bool) (env : FetchEnv) (b : TimeBudget)
    (st : LoopState) :
    (finishLoop speed env b st).final.attemptsMade = st.attemptsMade := by
  simp only [finishLoop]
  split_ifs <;> simp

/-- Helper: the post-loop code never touches the recorded sleeps. -/
theorem finishLoop_sleeps (speed : Bool) (env : FetchEnv) (b : TimeBudget)
    (st : LoopState) :
    (finishLoop speed env b st).final.sleeps = st.sleeps := by
  simp only [finishLoop]
  split_ifs <;> simp

/-- Helper: the final fallback runs at most one temp-driver attempt. -/
theorem finishLoop_finalCount_le (speed : Bool) (env : FetchEnv) (b : TimeBudget)
    (st : LoopState) :
    (finishLoop speed env b st).final.finalCount ≤ st.finalCount + 1 := by
  simp only [finishLoop]
  split_ifs <;> simp

/-- Helper: in accuracy mode the final fallback never runs. -/
theorem finishLoop_finalCount_accuracy (env : FetchEnv) (b : TimeBudget)
    (st : LoopState) :
    (finishLoop false env b st).final.finalCount = st.finalCount := by
  simp only [finishLoop]
  split_ifs with h1 h2 h3 <;> first | rfl | exact h2.1.elim

/-- Helper: once `did_early_accuracy` is set the early-fallback block is a
no-op. -/
theorem earlyFallbackStep_frozen (speed : Bool) (env : FetchEnv) (b : TimeBudget)
    (isRT : Bool) (st : LoopState) (h : st.didEarly = true) :
    earlyFallbackStep speed env b isRT st = (false, st) := by
  unfold earlyFallbackStep
  rw [if_neg]
  simp [h]

/-- Helper: in accuracy mode the early-fallback block is a no-op. -/
theorem earlyFallbackStep_accuracy (env : FetchEnv) (b : TimeBudget)
    (isRT : Bool) (st : LoopState) :
    earlyFallbackStep false env b isRT st = (false, st) := by
  unfold earlyFallbackStep
  rw [if_neg]
  simp

/-- Helper: the early-fallback block leaves every loop local except the
clock, the flag and the early counter unchanged. -/
theorem earlyFallbackStep_fields (speed : Bool) (env : FetchEnv) (b : TimeBudget)
    (isRT : Bool) (st : LoopState) :
    (earlyFallbackStep speed env b isRT st).2.lastExc = st.lastExc ∧
    (earlyFallbackStep speed env b isRT st).2.finalCount = st.finalCount ∧
    (earlyFallbackStep speed env b isRT st).2.attemptsMade = st.attemptsMade ∧
    (earlyFallbackStep speed env b isRT st).2.sleeps = st.sleeps := by
  unfold earlyFallbackStep
  split <;> simp

/-- Helper: the early-fallback block either leaves the flag and counter
alone or — only when the flag was clear — sets the flag and bumps the
counter by one. -/
theorem earlyFallbackStep_early (speed : Bool) (env : FetchEnv) (b : TimeBudget)
    (isRT : Bool) (st : LoopState) :
    ((earlyFallbackStep speed env b isRT st).2.didEarly = st.didEarly ∧
      (earlyFallbackStep speed env b isRT st).2.earlyCount = st.earlyCount) ∨
    (st.didEarly = false ∧
      (earlyFallbackStep speed env b isRT st).2.didEarly = true ∧
      (earlyFallbackStep speed env b isRT st).2.earlyCount = st.earlyCount + 1) := by
  unfold earlyFallbackStep
  split
  · next h => exact Or.inr ⟨h.1, by simp, by simp⟩
  · exact Or.inl ⟨rfl, rfl⟩

/-- Helper: once `did_early_accuracy` is set, no later iteration changes
the early-escalation counter. -/
theorem loopGo_earlyCount_frozen (speed : Bool) (env : FetchEnv) (b : TimeBudget) :
    ∀ (fuel i : Nat) (st : LoopState), st.didEarly = true →
      (loopGo speed env b fuel i st).final.earlyCount = st.earlyCount := by
  intro fuel
  induction fuel with
  | zero =>
      intro i st h
      simp only [loopGo]
      exact finishLoop_earlyCount speed env b st
  | succ n ih =>
      intro i st h
      simp only [loopGo]
      split
      · exact finishLoop_earlyCount speed env b st
      · cases henv : env.attempt i with
        | success dur => simp [henv]
        | failure isRT dur =>
            simp only [henv]
            rw [earlyFallbackStep_frozen speed env b isRT _ (by simpa using h)]
            simp only [Bool.false_eq_true, if_false]
            split
            · simpa using finishLoop_earlyCount speed env b _
            · simpa using ih (i + 1) _ (by simpa using h)

/-- Helper: from a state with a clear flag and a zero counter the loop
performs at most one early escalation. -/
theorem loopGo_earlyCount_le_one (speed : Bool) (env : FetchEnv) (b : TimeBudget) :
    ∀ (fuel i : Nat) (st : LoopState), st.didEarly = false → st.earlyCount = 0 →
      (loopGo speed env b fuel i st).final.earlyCount ≤ 1 := by
  intro fuel
  induction fuel with
  | zero =>
      intro i st hde hec
      simp only [loopGo]
      rw [finishLoop_earlyCount, hec]
      omega
  | succ n ih =>
      intro i st hde hec
      simp only [loopGo]
      split
      · rw [finishLoop_earlyCount, hec]
        omega
      · cases henv : env.attempt i with
        | success dur =>
            simp only [henv, hec]
            omega
        | failure isRT dur =>
            simp only [henv]
            set st1 : LoopState :=
              { st with now := st.now + dur, lastExc := true,
                        attemptsMade := st.attemptsMade + 1 } with hst1
            have hfde : st1.didEarly = false := hde
            have hfec : st1.earlyCount = 0 := hec
            rcases earlyFallbackStep_early speed env b isRT st1 with
              ⟨hde1, hec1⟩ | ⟨hde0, hde1, hec1⟩
            · have hcount : (earlyFallbackStep speed env b isRT st1).2.earlyCount ≤ 1 := by
                rw [hec1, hfec]
                omega
              split
              · simpa using hcount
              · split
                · rw [finishLoop_earlyCount]
                  exact hcount
                · exact ih (i + 1) _ (by simp [hde1, hfde, hde])
                    (by simp [hec1, hfec, hec])
            · have hcount : (earlyFallbackStep speed env b isRT st1).2.earlyCount ≤ 1 := by
                rw [hec1, hfec]
              split
              · simpa using hcount
              · split
                · rw [finishLoop_earlyCount]
                  exact hcount
                · rw [loopGo_earlyCount_frozen speed env b n (i + 1) _
                    (by simp [hde1])]
                  simpa using hcount

/-- Helper: a whole run increments the final-fallback counter at most
once. -/
theorem loopGo_finalCount_le (speed : Bool) (env : FetchEnv) (b : TimeBudget) :
    ∀ (fuel i : Nat) (st : LoopState),
      (loopGo speed env b fuel i st).final.finalCount ≤ st.finalCount + 1 := by
  intro fuel
  induction fuel with
  | zero =>
      intro i st
      simp only [loopGo]
      exact finishLoop_finalCount_le speed env b st
  | succ n ih =>
      intro i st
      simp only [loopGo]
      split
      · exact finishLoop_finalCount_le speed env b st
      · cases henv : env.attempt i with
        | success dur => simp [henv]
        | failure isRT dur =>
            simp only [henv]
            set st1 : LoopState :=
              { st with now := st.now + dur, lastExc := true,
                        attemptsMade := st.attemptsMade + 1 } with hst1
            have hfc : (earlyFallbackStep speed env b isRT st1).2.finalCount = st1.finalCount :=
              (earlyFallbackStep_fields speed env b isRT st1).2.1
            have hls : st1.finalCount = st.finalCount := rfl
            split
            · simp only
              rw [hfc, hls]
              exact Nat.le_succ _
            · split
              · refine le_trans (finishLoop_finalCount_le speed env b _) ?_
                rw [hfc, hls]
              · refine le_trans (ih (i + 1) _) ?_
                simp only
                rw [hfc, hls]

/-- Helper: the loop makes at most `fuel` more navigation attempts. -/
theorem loopGo_attempts_le (speed : Bool) (env : FetchEnv) (b : TimeBudget) :
    ∀ (fuel i : Nat) (st : LoopState),
      (loopGo speed env b fuel i st).final.attemptsMade ≤ st.attemptsMade + fuel := by
  intro fuel
  induction fuel with
  | zero =>
      intro i st
      simp only [loopGo]
      rw [finishLoop_attempts]
      exact Nat.le_add_right _ _
  | succ n ih =>
      intro i st
      simp only [loopGo]
      split
      · rw [finishLoop_attempts]
        exact Nat.le_add_right _ _
      · cases henv : env.attempt i with
        | success dur =>
            simp only [henv]
            omega
        | failure isRT dur =>
            simp only [henv]
            set st1 : LoopState :=
              { st with now := st.now + dur, lastExc := true,
                        attemptsMade := st.attemptsMade + 1 } with hst1
            have hma : (earlyFallbackStep speed env b isRT st1).2.attemptsMade = st1.attemptsMade :=
              (earlyFallbackStep_fields speed env b isRT st1).2.2.1
            have hls : st1.attemptsMade = st.attemptsMade + 1 := rfl
            split
            · simp only
              rw [hma, hls]
              omega
            · split
              · rw [finishLoop_attempts, hma, hls]
                omega
              · refine le_trans (ih (i + 1) _) ?_
                simp only
                rw [hma, hls]
                omega

/-- Helper: every backoff sleep the loop records is truncated to the
remaining budget and to the 5-second backoff cap. -/
theorem loopGo_sleeps_bounded (speed : Bool) (env : FetchEnv) (b : TimeBudget) :
    ∀ (fuel i : Nat) (st : LoopState),
      (∀ p ∈ st.sleeps, p.1 ≤ p.2 ∧ p.1 ≤ 5) →
      ∀ p ∈ (loopGo speed env b fuel i st).final.sleeps, p.1 ≤ p.2 ∧ p.1 ≤ 5 := by
  intro fuel
  induction fuel with
  | zero =>
      intro i st h
      simp only [loopGo]
      rw [finishLoop_sleeps]
      exact h
  | succ n ih =>
      intro i st h
      simp only [loopGo]
      split
      · rw [finishLoop_sleeps]
        exact h
      · cases henv : env.attempt i with
        | success dur => simpa [henv] using h
        | failure isRT dur =>
            simp only [henv]
            set st1 : LoopState :=
              { st with now := st.now + dur, lastExc := true,
                        attemptsMade := st.attemptsMade + 1 } with hst1
            have hsl : (earlyFallbackStep speed env b isRT st1).2.sleeps = st1.sleeps :=
              (earlyFallbackStep_fields speed env b isRT st1).2.2.2
            have hls : st1.sleeps = st.sleeps := rfl
            split
            · simp only
              rw [hsl, hls]
              exact h
            · split
              · rw [finishLoop_sleeps, hsl, hls]
                exact h
              · refine ih (i + 1) _ ?_
                intro p hp
                simp only [List.mem_cons] at hp
                rcases hp with hp | hp
                · subst hp
                  refine ⟨min_le_right _ _, ?_⟩
                  exact le_trans (min_le_left _ _) (min_le_right _ _)
                · rw [hsl, hls] at hp
                  exact h p hp

/-- Helper: in accuracy mode neither the early escalation nor the final
fallback ever runs. -/
theorem loopGo_accuracy_no_fallback (env : FetchEnv) (b : TimeBudget) :
    ∀ (fuel i : Nat) (st : LoopState),
      (loopGo false env b fuel i st).final.earlyCount = st.earlyCount ∧
      (loopGo false env b fuel i st).final.finalCount = st.finalCount := by
  intro fuel
  induction fuel with
  | zero =>
      intro i st
      simp only [loopGo]
      exact ⟨finishLoop_earlyCount false env b st,
        finishLoop_finalCount_accuracy env b st⟩
  | succ n ih =>
      intro i st
      simp only [loopGo]
      split
      · exact ⟨finishLoop_earlyCount false env b st,
          finishLoop_finalCount_accuracy env b st⟩
      · cases henv : env.attempt i with
        | success dur => simp [henv]
        | failure isRT dur =>
            simp only [henv]
            rw [earlyFallbackStep_accuracy env b isRT]
            simp only [Bool.false_eq_true, if_false]
            split
            · exact ⟨finishLoop_earlyCount false env b _,
                finishLoop_finalCount_accuracy env b _⟩
            · exact ⟨(ih (i + 1) _).1, (ih (i + 1) _).2⟩

/-- Helper: in speed mode a first attempt that raises a renderer-level
timeout with more than 2 s of budget left triggers the early escalation
exactly once over the whole run. -/
theorem run_first_rt_exactly_one_early (retries : Nat) (T : ℚ) (env : FetchEnv)
    (d : ℚ) (hatt : env.attempt 0 = .failure true d) (hT : 0 < T)
    (hleft : 2 < (TimeBudget.make 0 T).left (0 + d)) :
    (seleniumFetchRun true retries T env).final.earlyCount = 1 := by
  unfold seleniumFetchRun
  have hm : maxAttempts true retries = min retries 1 + 1 := rfl
  rw [hm]
  simp only [loopGo]
  have hb0 : ¬ ((TimeBudget.make 0 T).left initialLoopState.now ≤ 0) := by
    show ¬ ((max 0 (0 + max 0 T - 0) : ℚ) ≤ 0)
    rw [not_le]
    calc (0 : ℚ) < T := hT
      _ ≤ max 0 T := le_max_right _ _
      _ = 0 + max 0 T - 0 := by ring
      _ ≤ max 0 (0 + max 0 T - 0) := le_max_right _ _
  rw [if_neg hb0, hatt]
  simp only
  set st1 : LoopState :=
    { initialLoopState with now := initialLoopState.now + d, lastExc := true,
                            attemptsMade := initialLoopState.attemptsMade + 1 } with hst1
  have hstep : earlyFallbackStep true env (TimeBudget.make 0 T) true st1 =
      ((env.temp (st1.earlyCount + st1.finalCount)).1,
        { st1 with now := st1.now + (env.temp (st1.earlyCount + st1.finalCount)).2,
                   didEarly := true, earlyCount := st1.earlyCount + 1 }) := by
    unfold earlyFallbackStep
    rw [if_pos ⟨rfl, rfl, hleft, rfl⟩]
  rw [hstep]
  split
  · rfl
  · split
    · rw [finishLoop_earlyCount]
      rfl
    · rw [loopGo_earlyCount_frozen true env (TimeBudget.make 0 T) _ _ _ rfl]
      rfl

/-- Counterexample to C7 as stated: in speed profile with retries = 2 and
a 60 s budget, the first attempt raises a renderer-level timeout with
budget remaining, every disposable-worker attempt fails, and the fetch
ends in the final `raise last_exc` having made TWO disposable accuracy
attempts (the early escalation at the first timeout and the final
fallback after the loop), not exactly one. -/
theorem speed_escalation_claim_counterexample :
    envC7.attempt 0 = .failure true 1 ∧
    (seleniumFetchRun true 2 60 envC7).result = .raisedLast ∧
    (seleniumFetchRun true 2 60 envC7).tempAccuracyCount = 2 := by
  have hrw : seleniumFetchRun true 2 60 envC7 =
      loopGo true envC7 (TimeBudget.make 0 60) (0 + 1 + 1) 0 initialLoopState := rfl
  refine ⟨rfl, ?_, ?_⟩ <;>
    · rw [hrw]
      norm_num [loopGo, finishLoop, earlyFallbackStep, envC7, initialLoopState,
        TimeBudget.make, TimeBudget.left, FetchTrace.tempAccuracyCount]

/-- C7 amended: in speed profile the first renderer-level timeout with
more than 2 s of budget left triggers the early escalation (a fresh
disposable accuracy worker) exactly once per run, and one further
disposable accuracy attempt — the final fallback — may run after the
retry loop exhausts, so up to two such attempts precede final failure;
attempts are bounded by `min(retries, 1) + 1` in speed and `retries + 1`
in accuracy; accuracy mode never uses the disposable-worker fallbacks;
and every backoff sleep is truncated to the remaining budget (and the
5 s backoff cap). -/
theorem speed_escalation_amended (retries : Nat) (timeoutSeconds : ℚ)
    (env : FetchEnv) :
    (∀ d : ℚ, env.attempt 0 = .failure true d → 0 < timeoutSeconds →
      2 < (TimeBudget.make 0 timeoutSeconds).left (0 + d) →
      (seleniumFetchRun true retries timeoutSeconds env).final.earlyCount = 1) ∧
    (seleniumFetchRun true retries timeoutSeconds env).final.earlyCount ≤ 1 ∧
    (seleniumFetchRun true retries timeoutSeconds env).final.finalCount ≤ 1 ∧
    (seleniumFetchRun true retries timeoutSeconds env).tempAccuracyCount ≤ 2 ∧
    (seleniumFetchRun true retries timeoutSeconds env).final.attemptsMade ≤
      min retries 1 + 1 ∧
    (seleniumFetchRun false retries timeoutSeconds env).final.attemptsMade ≤
      retries + 1 ∧
    (seleniumFetchRun false retries timeoutSeconds env).tempAccuracyCount = 0 ∧
    ∀ sp : Bool, ∀ p ∈ (seleniumFetchRun sp retries timeoutSeconds env).final.sleeps,
      p.1 ≤ p.2 ∧ p.1 ≤ 5 := by
  have hec := loopGo_earlyCount_le_one true env (TimeBudget.make 0 timeoutSeconds)
    (maxAttempts true retries) 0 initialLoopState rfl rfl
  have hfc := loopGo_finalCount_le true env (TimeBudget.make 0 timeoutSeconds)
    (maxAttempts true retries) 0 initialLoopState
  have hfc0 : initialLoopState.finalCount = 0 := rfl
  refine ⟨fun d hd hT hl =>
    run_first_rt_exactly_one_early retries timeoutSeconds env d hd hT hl,
    hec, ?_, ?_, ?_, ?_, ?_, ?_⟩
  · exact le_trans hfc (by rw [hfc0])
  · simp only [FetchTrace.tempAccuracyCount, seleniumFetchRun]
    simp only [FetchTrace.tempAccuracyCount, seleniumFetchRun] at hec hfc
    omega
  · have h := loopGo_attempts_le true env (TimeBudget.make 0 timeoutSeconds)
      (maxAttempts true retries) 0 initialLoopState
    have h0 : initialLoopState.attemptsMade = 0 := rfl
    have hm : maxAttempts true retries = min retries 1 + 1 := rfl
    rw [h0, hm] at h
    simpa using h
  · have h := loopGo_attempts_le false env (TimeBudget.make 0 timeoutSeconds)
      (maxAttempts false retries) 0 initialLoopState
    have h0 : initialLoopState.attemptsMade = 0 := rfl
    have hm : maxAttempts false retries = retries + 1 := rfl
    rw [h0, hm] at h
    simpa using h
  · have h := loopGo_accuracy_no_fallback env (TimeBudget.make 0 timeoutSeconds)
      (maxAttempts false retries) 0 initialLoopState
    simp only [FetchTrace.tempAccuracyCount, seleniumFetchRun]
    rw [h.1, h.2]
    rfl
  · intro sp p hp
    refine loopGo_sleeps_bounded sp env (TimeBudget.make 0 timeoutSeconds)
      (maxAttempts sp retries) 0 initialLoopState ?_ p hp
    intro q hq
    simp [initialLoopState] at hq

/-- Witness for `speed_escalation_amended`: the concrete environment of
the counterexample run escalates early exactly once. -/
theorem speed_escalation_amended_witness :
    (seleniumFetchRun true 2 60 envC7).final.earlyCount = 1 :=
  (speed_escalation_amended 2 60 envC7).1 1 rfl (by norm_num)
    (by show (2 : ℚ) < max 0 (0 + max 0 60 - (0 + 1)); norm_num)

end Spec2Proof
